import Mathlib

/-!
Shallow embedding of the Mandelbrot renderer in `main.go` of the
go-mandelbrot repository.

Modelling decisions:
* Go `float64` coordinates are modelled as exact rationals `ℚ`; the
  algorithmic structure (iteration order, escape test, first-escape index)
  is unchanged, and every concrete value the claims mention (0, 5+5i, the
  pixel (400,400) mapping) is exactly representable in both `float64` and
  `ℚ`, with the arithmetic on those particular values exact.
* A Go `*image.RGBA` raster with bounds `[0,width) × [0,height)` is a
  function `Fin width → Fin height → RGBA`; `image.RGBA.Set` writes the
  pixel when the coordinates are in bounds and is a no-op otherwise.
* The read-only source image is a function giving, per pixel, the four
  16-bit channel values that Go's `Color.RGBA()` method returns.
* The parallel renderer's goroutines write pairwise disjoint columns, so
  its final raster is modelled as the (order-independent) fold over the
  columns; the wait-group bookkeeping is modelled by explicit counters.
* `uint8(e)` conversions are modelled as `e % 256`.
-/

def width : Nat := 800
def height : Nat := 800
def maxIter : Nat := 200

structure ComplexNumber where
  Real : ℚ
  Imag : ℚ
deriving DecidableEq

/-- One loop-body update of `mandelbrot`:
`z = ComplexNumber{z.Real*z.Real - z.Imag*z.Imag + c.Real, 2*z.Real*z.Imag + c.Imag}`. -/
def zStep (c z : ComplexNumber) : ComplexNumber :=
  ⟨z.Real * z.Real - z.Imag * z.Imag + c.Real, 2 * z.Real * z.Imag + c.Imag⟩

/-- The squared magnitude `z.Real*z.Real + z.Imag*z.Imag` used in the escape test. -/
def normSq (z : ComplexNumber) : ℚ := z.Real * z.Real + z.Imag * z.Imag

/-- The `for i := 0; i < maxIter; i++` loop of `mandelbrot`, with the
remaining iteration count as explicit fuel. Returns `some i` when the escape
test `z.Real*z.Real+z.Imag*z.Imag > 4` fires at loop index `i` (the test is
made after the update of `z`), and `none` when the loop runs out. -/
def mandelbrotLoop (c z : ComplexNumber) (i fuel : Nat) : Option Nat :=
  match fuel with
  | 0 => none
  | fuel' + 1 =>
    if 4 < normSq (zStep c z) then some i
    else mandelbrotLoop c (zStep c z) (i + 1) fuel'

/-- The two colors `mandelbrot` can return: `color.Gray{uint8(i % 256)}`
or `color.Black`. -/
inductive GoColor where
  | gray (y : Nat) : GoColor
  | black : GoColor
deriving DecidableEq

/-- `func mandelbrot(c ComplexNumber) color.Color`. -/
def mandelbrot (c : ComplexNumber) : GoColor :=
  match mandelbrotLoop c ⟨0, 0⟩ 0 maxIter with
  | some i => GoColor.gray (i % 256)
  | none => GoColor.black

/-- The orbit `z₀ = 0, z_{n+1} = z_n² + c`: the successive values the loop
variable `z` takes (specification-side view of the loop). -/
def zSeq (c : ComplexNumber) : Nat → ComplexNumber
  | 0 => ⟨0, 0⟩
  | n + 1 => zStep c (zSeq c n)

/-- The escape test observed at loop index `i`: loop iteration `i` updates
`z` to `zSeq c (i+1)` and then tests `|z|² > 4`. -/
def escapesAt (c : ComplexNumber) (i : Nat) : Prop := 4 < normSq (zSeq c (i + 1))

/-- An 8-bit-per-channel pixel of a Go `image.RGBA` raster. -/
structure RGBA where
  r : Nat
  g : Nat
  b : Nat
  a : Nat
deriving DecidableEq

/-- The four 16-bit channel values returned by Go's `Color.RGBA()` for one
pixel of the decoded existing image (each `< 65536` for a valid color). -/
structure RGBA64 where
  r : Nat
  g : Nat
  b : Nat
  a : Nat
deriving DecidableEq

/-- A Go `*image.RGBA` raster with bounds `[0,width) × [0,height)`. -/
def Raster : Type := Fin width → Fin height → RGBA

/-- The read-only decoded source image (`existingImg`), sampled through
`At(x,y).RGBA()`. -/
def SourceImage : Type := Nat → Nat → RGBA64

/-- `img.Set(x, y, c)`: stores `c` at `(x,y)` when in bounds, no-op
otherwise (Go's `Set` checks `Point{x,y}.In(p.Rect)`). -/
def Raster.set (img : Raster) (x y : Nat) (c : RGBA) : Raster :=
  fun i j => if x = i.val ∧ y = j.val then c else img i j

/-- The 8-bit RGBA value `image.RGBA.Set` stores for each color
`mandelbrot` can return, per Go's color model conversion:
`color.Gray{y}` has `RGBA() = (y*0x101, y*0x101, y*0x101, 0xffff)`, whose
high bytes give `(y, y, y, 255)`; `color.Black` is `Gray16{0}`, stored as
`(0, 0, 0, 255)`. -/
def GoColor.toRGBA : GoColor → RGBA
  | GoColor.gray y => ⟨y % 256, y % 256, y % 256, 255⟩
  | GoColor.black => ⟨0, 0, 0, 255⟩

/-- The pixel written at line 45/64:
`color.RGBA{uint8(r >> 8), uint8(g >> 8), uint8(b >> 8), 255}` where
`r, g, b, _ := existingImg.At(x, y).RGBA()`. -/
def quantize (p : RGBA64) : RGBA :=
  ⟨p.r >>> 8 % 256, p.g >>> 8 % 256, p.b >>> 8 % 256, 255⟩

/-- The `ComplexNumber` built in `generateMandelbrotSequential`:
`Real: float64(x-width/2) / (width / 4), Imag: float64(y-height/2) / (height / 4)`. -/
def seqMapPoint (x y : Nat) : ComplexNumber :=
  { Real := (((x : ℤ) - (width : ℤ) / 2 : ℤ) : ℚ) / (((width : ℤ) / 4 : ℤ) : ℚ)
  , Imag := (((y : ℤ) - (height : ℤ) / 2 : ℤ) : ℚ) / (((height : ℤ) / 4 : ℤ) : ℚ) }

/-- The `ComplexNumber` built in the goroutine body of
`generateMandelbrotParallel` (textually the same expression). -/
def parMapPoint (x y : Nat) : ComplexNumber :=
  { Real := (((x : ℤ) - (width : ℤ) / 2 : ℤ) : ℚ) / (((width : ℤ) / 4 : ℤ) : ℚ)
  , Imag := (((y : ℤ) - (height : ℤ) / 2 : ℤ) : ℚ) / (((height : ℤ) / 4 : ℤ) : ℚ) }

/-- The body of the inner loop of `generateMandelbrotSequential` for one
pixel `(x,y)`: write the fractal color, then overwrite the same pixel with
the re-quantized existing-image pixel. -/
def seqPixel (existingImg : SourceImage) (x y : Nat) (img : Raster) : Raster :=
  ((img.set x y (mandelbrot (seqMapPoint x y)).toRGBA).set x y
    (quantize (existingImg x y)))

/-- The body of the inner loop of the goroutine of
`generateMandelbrotParallel` for one pixel `(x,y)` (textually the same two
writes). -/
def parPixel (existingImg : SourceImage) (x y : Nat) (img : Raster) : Raster :=
  ((img.set x y (mandelbrot (parMapPoint x y)).toRGBA).set x y
    (quantize (existingImg x y)))

/-- `func generateMandelbrotSequential(img *image.RGBA, existingImg image.Image)`:
outer loop over `x` in `[bounds.Min.X, bounds.Max.X) = [0, width)`, inner
loop over `y` in `[0, height)`. -/
def generateMandelbrotSequential (img : Raster) (existingImg : SourceImage) : Raster :=
  (List.range width).foldl
    (fun acc x => (List.range height).foldl
      (fun acc' y => seqPixel existingImg x y acc') acc)
    img

/-- `func generateMandelbrotParallel(img *image.RGBA, existingImg image.Image)`:
one goroutine per column `x` in `[0, width)`, each writing all pixels of its
own column; since distinct goroutines write pairwise disjoint pixels, the
raster after the `wg.Wait()` barrier equals this fold over the columns. -/
def generateMandelbrotParallel (img : Raster) (existingImg : SourceImage) : Raster :=
  (List.range width).foldl
    (fun acc x => (List.range height).foldl
      (fun acc' y => parPixel existingImg x y acc') acc)
    img

/-- The argument of the single `wg.Add` call in `generateMandelbrotParallel`:
`wg.Add(height)`. -/
def wgAddCount : Nat := height

/-- The number of goroutines `generateMandelbrotParallel` spawns, each
deferring exactly one `wg.Done()`: one per `x` in `[0, width)`. -/
def numColumnGoroutines : Nat := width

/-- `func copyImage(destImg *image.RGBA, srcImg image.Image)`: stores at
each pixel of `destImg` the color-model conversion of `srcImg.At(x, y)`
(high byte of each of the four 16-bit channels). -/
def copyImage (destImg : Raster) (srcImg : SourceImage) : Raster :=
  (List.range width).foldl
    (fun acc x => (List.range height).foldl
      (fun acc' y => acc'.set x y
        ⟨(srcImg x y).r >>> 8 % 256, (srcImg x y).g >>> 8 % 256,
         (srcImg x y).b >>> 8 % 256, (srcImg x y).a >>> 8 % 256⟩) acc)
    destImg

/-- The observable outcome of one `processImage` call: the output files it
writes via `saveImage` (path with the rendered raster), the timing lines it
prints, and how many rasters it allocates with `image.NewRGBA`. -/
structure ProcOutput where
  filesWritten : List (String × Raster)
  timingReports : List String
  rastersAllocated : Nat

/-- `func processImage(file string, level string, wg *sync.WaitGroup)`.
The input-open attempt is `openResult` (the `os.Open` outcome for the
preset's file) and decoding is `decodeImage` (the `image.Decode` outcome);
both failures return early, before any raster is allocated. On success the
decoded image has the fixed `[0,width) × [0,height)` bounds, two rasters
are allocated, pre-filled with `copyImage`, rendered, and saved. -/
def processImage {α : Type} (level : String) (openResult : Option α)
    (decodeImage : α → Option SourceImage) : ProcOutput :=
  match openResult with
  | none => { filesWritten := [], timingReports := [], rastersAllocated := 0 }
  | some f =>
    match decodeImage f with
    | none => { filesWritten := [], timingReports := [], rastersAllocated := 0 }
    | some existingImg =>
      let zeroRGBA : RGBA := ⟨0, 0, 0, 0⟩
      let sequentialImg : Raster := fun _ _ => zeroRGBA
      let parallelImg : Raster := fun _ _ => zeroRGBA
      let sequentialImg := copyImage sequentialImg existingImg
      let parallelImg := copyImage parallelImg existingImg
      let sequentialImg := generateMandelbrotSequential sequentialImg existingImg
      let parallelImg := generateMandelbrotParallel parallelImg existingImg
      { filesWritten :=
          [ ("photos/result/" ++ level ++ "/mandelbrot_sequential.png", sequentialImg)
          , ("photos/result/" ++ level ++ "/mandelbrot_parallel.png", parallelImg) ]
      , timingReports := [level ++ " Sequential", level ++ " Parallel"]
      , rastersAllocated := 2 }

/-- The `levelFiles` map of `main`, as the (unordered) association list of
presets to input files. -/
def levelFiles : List (String × String) :=
  [("easy", "photos/easy.png"), ("normal", "photos/normal.png"), ("hard", "photos/hard.png")]

/-- `func main()`: one independent `processImage` call per preset (each
with its own `wg.Add(1)`/`Done`), joined by `wg.Wait()`; the outcome is the
per-preset `ProcOutput`. `openFile` models the filesystem seen by
`os.Open`. -/
def mainRun {α : Type} (openFile : String → Option α)
    (decodeImage : α → Option SourceImage) : List (String × ProcOutput) :=
  levelFiles.map (fun lf => (lf.1, processImage lf.1 (openFile lf.2) decodeImage))

/-- Step-counting instrumentation of `mandelbrotLoop`: the same recursion,
additionally returning the number of loop iterations actually executed. -/
def mandelbrotLoopT (c z : ComplexNumber) (i fuel : Nat) : Option Nat × Nat :=
  match fuel with
  | 0 => (none, 0)
  | fuel' + 1 =>
    if 4 < normSq (zStep c z) then (some i, 1)
    else ((mandelbrotLoopT c (zStep c z) (i + 1) fuel').1,
          (mandelbrotLoopT c (zStep c z) (i + 1) fuel').2 + 1)

theorem zSeq_succ (c : ComplexNumber) (n : Nat) : zSeq c (n + 1) = zStep c (zSeq c n) := rfl

theorem mandelbrotLoop_eq_none (c : ComplexNumber) :
    ∀ (fuel i : Nat), (∀ j, i ≤ j → j < i + fuel → ¬ escapesAt c j) →
      mandelbrotLoop c (zSeq c i) i fuel = none := by
  intro fuel
  induction fuel with
  | zero => intro i _; rfl
  | succ f ih =>
    intro i h
    have hni : ¬ escapesAt c i := h i le_rfl (by omega)
    have hcond : ¬ (4 < normSq (zStep c (zSeq c i))) := hni
    unfold mandelbrotLoop
    rw [if_neg hcond]
    exact ih (i + 1) (fun j hj1 hj2 => h j (by omega) (by omega))

theorem mandelbrotLoop_eq_some (c : ComplexNumber) :
    ∀ (fuel i j : Nat), i ≤ j → j < i + fuel → escapesAt c j →
      (∀ k, i ≤ k → k < j → ¬ escapesAt c k) →
      mandelbrotLoop c (zSeq c i) i fuel = some j := by
  intro fuel
  induction fuel with
  | zero => intro i j h1 h2 _ _; omega
  | succ f ih =>
    intro i j h1 h2 he hmin
    by_cases hi : escapesAt c i
    · have hji : j = i := by
        rcases Nat.lt_or_ge i j with hij | hij
        · exact absurd hi (hmin i le_rfl hij)
        · omega
      subst hji
      have hi' : 4 < normSq (zStep c (zSeq c j)) := hi
      unfold mandelbrotLoop
      rw [if_pos hi']
    · have hij : i < j := by
        rcases Nat.lt_or_ge i j with h | h
        · exact h
        · have : j = i := by omega
          exact absurd (this ▸ he) hi
      have hi' : ¬ (4 < normSq (zStep c (zSeq c i))) := hi
      unfold mandelbrotLoop
      rw [if_neg hi']
      exact ih (i + 1) j (by omega) (by omega) he (fun k hk1 hk2 => hmin k (by omega) hk2)

theorem mandelbrotLoop_some_spec (c : ComplexNumber) :
    ∀ (fuel i j : Nat), mandelbrotLoop c (zSeq c i) i fuel = some j →
      i ≤ j ∧ j < i + fuel ∧ escapesAt c j ∧ ∀ k, i ≤ k → k < j → ¬ escapesAt c k := by
  intro fuel
  induction fuel with
  | zero => intro i j h; exact absurd h (by simp [mandelbrotLoop])
  | succ f ih =>
    intro i j h
    unfold mandelbrotLoop at h
    by_cases hc : 4 < normSq (zStep c (zSeq c i))
    · rw [if_pos hc] at h
      have hji : j = i := by injection h with h; omega
      subst hji
      exact ⟨le_rfl, by omega, hc, fun k hk1 hk2 => by omega⟩
    · rw [if_neg hc] at h
      have h' := ih (i + 1) j h
      refine ⟨by omega, by omega, h'.2.2.1, fun k hk1 hk2 => ?_⟩
      rcases Nat.lt_or_ge k (i + 1) with hk | hk
      · have hki : k = i := by omega
        exact hki ▸ hc
      · exact h'.2.2.2 k hk hk2

theorem mandelbrot_eq_black (c : ComplexNumber)
    (h : ∀ i, i < maxIter → ¬ escapesAt c i) : mandelbrot c = GoColor.black := by
  unfold mandelbrot
  have h0 : (⟨0, 0⟩ : ComplexNumber) = zSeq c 0 := rfl
  rw [h0, mandelbrotLoop_eq_none c maxIter 0 (fun j _ hj2 => h j (by omega))]

theorem mandelbrot_eq_gray (c : ComplexNumber) (j : Nat)
    (hj : j < maxIter) (he : escapesAt c j) (hmin : ∀ k, k < j → ¬ escapesAt c k) :
    mandelbrot c = GoColor.gray (j % 256) := by
  unfold mandelbrot
  have h0 : (⟨0, 0⟩ : ComplexNumber) = zSeq c 0 := rfl
  rw [h0, mandelbrotLoop_eq_some c maxIter 0 j (by omega) (by omega) he
    (fun k _ hk2 => hmin k hk2)]

theorem mandelbrot_gray_inv (c : ComplexNumber) (v : Nat)
    (h : mandelbrot c = GoColor.gray v) :
    ∃ j, j < maxIter ∧ escapesAt c j ∧ (∀ k, k < j → ¬ escapesAt c k) ∧ v = j % 256 := by
  unfold mandelbrot at h
  cases heq : mandelbrotLoop c ⟨0, 0⟩ 0 maxIter with
  | none => rw [heq] at h; exact absurd h (by simp)
  | some j =>
    rw [heq] at h
    have hv : v = j % 256 := by injection h with h; omega
    have h0 : (⟨0, 0⟩ : ComplexNumber) = zSeq c 0 := rfl
    rw [h0] at heq
    have hs := mandelbrotLoop_some_spec c maxIter 0 j heq
    exact ⟨j, by omega, hs.2.2.1, fun k hk => hs.2.2.2 k (by omega) hk, hv⟩

theorem zSeq_zero_zero (n : Nat) : zSeq ⟨0, 0⟩ n = ⟨0, 0⟩ := by
  induction n with
  | zero => rfl
  | succ m ih =>
    rw [zSeq_succ, ih]
    show (⟨0 * 0 - 0 * 0 + 0, 2 * 0 * 0 + 0⟩ : ComplexNumber) = ⟨0, 0⟩
    norm_num

theorem not_escapesAt_origin (i : Nat) : ¬ escapesAt ⟨0, 0⟩ i := by
  unfold escapesAt
  rw [zSeq_zero_zero]
  norm_num [normSq]

theorem mandelbrot_origin : mandelbrot ⟨0, 0⟩ = GoColor.black :=
  mandelbrot_eq_black _ (fun i _ => not_escapesAt_origin i)

theorem escapesAt_five_five : escapesAt ⟨5, 5⟩ 0 := by
  unfold escapesAt
  show 4 < normSq (zStep ⟨5, 5⟩ (zSeq ⟨5, 5⟩ 0))
  show 4 < normSq (zStep ⟨5, 5⟩ ⟨0, 0⟩)
  norm_num [zStep, normSq]

theorem mandelbrot_five_five : mandelbrot ⟨5, 5⟩ = GoColor.gray 0 := by
  have h := mandelbrot_eq_gray ⟨5, 5⟩ 0 (by norm_num [maxIter]) escapesAt_five_five
    (fun k hk => absurd hk (Nat.not_lt_zero k))
  simpa using h

theorem Raster.set_apply (img : Raster) (x y : Nat) (c : RGBA) (i : Fin width) (j : Fin height) :
    img.set x y c i j = if x = i.val ∧ y = j.val then c else img i j := rfl

theorem Raster.set_set (img : Raster) (x y : Nat) (c₁ c₂ : RGBA) :
    (img.set x y c₁).set x y c₂ = img.set x y c₂ := by
  funext i j
  simp only [Raster.set]
  by_cases h : x = i.val ∧ y = j.val <;> simp [h]

theorem seqPixel_eq_set (existingImg : SourceImage) (x y : Nat) (img : Raster) :
    seqPixel existingImg x y img = img.set x y (quantize (existingImg x y)) :=
  Raster.set_set img x y _ _

theorem parPixel_eq_seqPixel : parPixel = seqPixel := rfl

theorem foldl_seqPixel_col (src : SourceImage) (x : Nat) (l : List Nat) :
    ∀ (acc : Raster) (i : Fin width) (j : Fin height),
      (l.foldl (fun a y => seqPixel src x y a) acc) i j
        = if x = i.val ∧ j.val ∈ l then quantize (src x j.val) else acc i j := by
  induction l with
  | nil => intro acc i j; simp
  | cons y t ih =>
    intro acc i j
    simp only [List.foldl_cons]
    rw [ih, seqPixel_eq_set, Raster.set_apply]
    simp only [List.mem_cons]
    by_cases hx : x = i.val
    · by_cases hjt : j.val ∈ t
      · simp [hx, hjt]
      · by_cases hjy : y = j.val
        · subst hjy
          simp [hx, hjt]
        · have hjy' : ¬ (j.val = y) := fun h => hjy h.symm
          simp [hx, hjt, hjy, hjy']
    · simp [hx]

theorem foldl_seqPixel_rows (src : SourceImage) (l : List Nat) :
    ∀ (acc : Raster) (i : Fin width) (j : Fin height),
      (l.foldl (fun a x => (List.range height).foldl
          (fun a' y => seqPixel src x y a') a) acc) i j
        = if i.val ∈ l then quantize (src i.val j.val) else acc i j := by
  induction l with
  | nil => intro acc i j; simp
  | cons x t ih =>
    intro acc i j
    simp only [List.foldl_cons]
    rw [ih, foldl_seqPixel_col]
    have hj : j.val ∈ List.range height := List.mem_range.mpr j.isLt
    simp only [List.mem_cons]
    by_cases hx : x = i.val
    · subst hx
      by_cases hit : i.val ∈ t <;> simp [hit, hj]
    · have hx' : ¬ (i.val = x) := fun h => hx h.symm
      by_cases hit : i.val ∈ t <;> simp [hx, hx', hit]

theorem generateMandelbrotSequential_apply (img : Raster) (src : SourceImage)
    (i : Fin width) (j : Fin height) :
    generateMandelbrotSequential img src i j = quantize (src i.val j.val) := by
  unfold generateMandelbrotSequential
  rw [foldl_seqPixel_rows]
  simp [List.mem_range, i.isLt]

theorem generateMandelbrotParallel_eq_sequential :
    generateMandelbrotParallel = generateMandelbrotSequential := by
  unfold generateMandelbrotParallel generateMandelbrotSequential
  rw [parPixel_eq_seqPixel]

theorem generateMandelbrotSequential_initial_irrelevant
    (img₁ img₂ : Raster) (src : SourceImage) :
    generateMandelbrotSequential img₁ src = generateMandelbrotSequential img₂ src := by
  funext i j
  rw [generateMandelbrotSequential_apply, generateMandelbrotSequential_apply]

theorem mandelbrotLoopT_fst (c : ComplexNumber) :
    ∀ (fuel : Nat) (z : ComplexNumber) (i : Nat),
      (mandelbrotLoopT c z i fuel).1 = mandelbrotLoop c z i fuel := by
  intro fuel
  induction fuel with
  | zero => intro z i; rfl
  | succ f ih =>
    intro z i
    unfold mandelbrotLoopT mandelbrotLoop
    by_cases hc : 4 < normSq (zStep c z)
    · rw [if_pos hc, if_pos hc]
    · rw [if_neg hc, if_neg hc]
      exact ih (zStep c z) (i + 1)

theorem mandelbrotLoopT_snd_le (c : ComplexNumber) :
    ∀ (fuel : Nat) (z : ComplexNumber) (i : Nat),
      (mandelbrotLoopT c z i fuel).2 ≤ fuel := by
  intro fuel
  induction fuel with
  | zero => intro z i; exact le_rfl
  | succ f ih =>
    intro z i
    unfold mandelbrotLoopT
    by_cases hc : 4 < normSq (zStep c z)
    · rw [if_pos hc]
      show 1 ≤ f + 1
      omega
    · rw [if_neg hc]
      show (mandelbrotLoopT c (zStep c z) (i + 1) f).2 + 1 ≤ f + 1
      have := ih (zStep c z) (i + 1)
      omega

/-- C1: For every pixel (x,y) in bounds, the final raster produced by either
renderer equals the SourceImage's pixel at (x,y) re-quantized from 16-bit to
8-bit per channel (each channel right-shifted by 8) with the alpha channel
forced to 255, regardless of what the escape-time evaluator returned for
that pixel: the fractal color written first is always overwritten. -/
theorem C1_final_raster_is_requantized_source
    (img : Raster) (src : SourceImage) (x y : Nat) (hx : x < width) (hy : y < height)
    (hr : (src x y).r < 65536) (hg : (src x y).g < 65536) (hb : (src x y).b < 65536) :
    generateMandelbrotSequential img src ⟨x, hx⟩ ⟨y, hy⟩
        = ⟨(src x y).r >>> 8, (src x y).g >>> 8, (src x y).b >>> 8, 255⟩
    ∧ generateMandelbrotParallel img src ⟨x, hx⟩ ⟨y, hy⟩
        = ⟨(src x y).r >>> 8, (src x y).g >>> 8, (src x y).b >>> 8, 255⟩ := by
  have h8 : ∀ n : Nat, n < 65536 → n >>> 8 % 256 = n >>> 8 := by
    intro n hn
    have hdiv : n >>> 8 = n / 256 := by
      rw [Nat.shiftRight_eq_div_pow]
    rw [hdiv]
    exact Nat.mod_eq_of_lt (Nat.div_lt_of_lt_mul (by omega))
  constructor
  · rw [generateMandelbrotSequential_apply]
    simp only [quantize]
    rw [h8 _ hr, h8 _ hg, h8 _ hb]
  · rw [generateMandelbrotParallel_eq_sequential, generateMandelbrotSequential_apply]
    simp only [quantize]
    rw [h8 _ hr, h8 _ hg, h8 _ hb]

/-- Witness for C1: pixel (0,0) over a constant source image. -/
theorem C1_witness :
    generateMandelbrotSequential (fun _ _ => ⟨0, 0, 0, 0⟩)
        (fun _ _ => ⟨43981, 4660, 65535, 65535⟩) ⟨0, by decide⟩ ⟨0, by decide⟩
      = ⟨43981 >>> 8, 4660 >>> 8, 65535 >>> 8, 255⟩
    ∧ generateMandelbrotParallel (fun _ _ => ⟨0, 0, 0, 0⟩)
        (fun _ _ => ⟨43981, 4660, 65535, 65535⟩) ⟨0, by decide⟩ ⟨0, by decide⟩
      = ⟨43981 >>> 8, 4660 >>> 8, 65535 >>> 8, 255⟩ :=
  C1_final_raster_is_requantized_source _ _ 0 0 (by decide) (by decide)
    (by decide) (by decide) (by decide)

/-- C2: For every pixel (x,y) in [0,W)x[0,H) and every SourceImage, the
Sequential and Parallel renderers compute the identical ComplexPoint, the
identical escape classification, and store the identical final color, so
after both complete the two rasters are equal pixel for pixel (even when the
two runs start from different initial rasters, as in processImage). -/
theorem C2_sequential_parallel_identical :
    (∀ x y : Nat, parMapPoint x y = seqMapPoint x y)
    ∧ (∀ x y : Nat, mandelbrot (parMapPoint x y) = mandelbrot (seqMapPoint x y))
    ∧ (∀ (src : SourceImage) (x y : Nat) (img : Raster),
        parPixel src x y img = seqPixel src x y img)
    ∧ (∀ (img₁ img₂ : Raster) (src : SourceImage),
        generateMandelbrotSequential img₁ src = generateMandelbrotParallel img₂ src) := by
  refine ⟨fun x y => rfl, fun x y => rfl, fun src x y img => rfl, fun img₁ img₂ src => ?_⟩
  rw [generateMandelbrotParallel_eq_sequential]
  exact generateMandelbrotSequential_initial_irrelevant img₁ img₂ src

/-- C3: The escape-time evaluator returns Escaped(i) (grayscale i mod 256,
all channels equal, full opacity) for the first loop index i < maxIter at
which the squared magnitude exceeds 4 after the update, Bounded (pure
black) when no escape occurs within maxIter iterations; in particular
mandelbrot(0+0i) = Bounded and mandelbrot(5+5i) = Escaped(0). -/
theorem C3_escape_time_evaluator :
    (∀ (c : ComplexNumber) (j : Nat), j < maxIter → escapesAt c j →
        (∀ k, k < j → ¬ escapesAt c k) → mandelbrot c = GoColor.gray (j % 256))
    ∧ (∀ c : ComplexNumber, (∀ i, i < maxIter → ¬ escapesAt c i) →
        mandelbrot c = GoColor.black)
    ∧ (∀ v : Nat, (GoColor.gray v).toRGBA = ⟨v % 256, v % 256, v % 256, 255⟩)
    ∧ GoColor.black.toRGBA = ⟨0, 0, 0, 255⟩
    ∧ mandelbrot ⟨0, 0⟩ = GoColor.black
    ∧ mandelbrot ⟨5, 5⟩ = GoColor.gray 0 :=
  ⟨mandelbrot_eq_gray, mandelbrot_eq_black, fun _ => rfl, rfl,
   mandelbrot_origin, mandelbrot_five_five⟩

/-- Witness for C3: the point 5+5i escapes at loop index 0. -/
theorem C3_witness : mandelbrot ⟨5, 5⟩ = GoColor.gray (0 % 256) :=
  C3_escape_time_evaluator.1 ⟨5, 5⟩ 0 (by decide) escapesAt_five_five
    (fun k hk => absurd hk (Nat.not_lt_zero k))

/-- C4: The coordinate mapper is a pure, total function returning
real = (x - W/2) / (W/4), imag = (y - H/2) / (H/4) with truncating integer
division in W/2 and W/4; for W = H = 800, pixel (400,400) maps exactly to
ComplexPoint(0,0). -/
theorem C4_coordinate_mapper :
    (∀ x y : Nat, seqMapPoint x y
        = ⟨(((x : ℤ) - (width : ℤ) / 2 : ℤ) : ℚ) / (((width : ℤ) / 4 : ℤ) : ℚ),
           (((y : ℤ) - (height : ℤ) / 2 : ℤ) : ℚ) / (((height : ℤ) / 4 : ℤ) : ℚ)⟩)
    ∧ width = 800 ∧ height = 800
    ∧ seqMapPoint 400 400 = ⟨0, 0⟩ := by
  refine ⟨fun x y => rfl, rfl, rfl, ?_⟩
  unfold seqMapPoint width height
  simp only [ComplexNumber.mk.injEq]
  norm_num

/-- C5: The escape-time evaluator terminates for every complex input within
at most maxIter = 200 loop iterations; it is a total, deterministic
function of the loop result. -/
theorem C5_evaluator_terminates (c : ComplexNumber) :
    (mandelbrotLoopT c ⟨0, 0⟩ 0 maxIter).2 ≤ maxIter
    ∧ maxIter = 200
    ∧ (mandelbrotLoopT c ⟨0, 0⟩ 0 maxIter).1 = mandelbrotLoop c ⟨0, 0⟩ 0 maxIter
    ∧ mandelbrot c = (match mandelbrotLoop c ⟨0, 0⟩ 0 maxIter with
        | some i => GoColor.gray (i % 256)
        | none => GoColor.black) :=
  ⟨mandelbrotLoopT_snd_le c maxIter ⟨0, 0⟩ 0, rfl,
   mandelbrotLoopT_fst c maxIter ⟨0, 0⟩ 0, rfl⟩

/-- C6: The parallel renderer partitions the raster into width independent
units of work, one per column, each computing all height pixels of its
column with the same per-pixel logic as the sequential renderer; the
wait-group counter, initialized by wg.Add(height), reaches zero exactly
when all width column goroutines have called Done (because height = width),
and only then does the renderer return the fully assembled raster. -/
theorem C6_parallel_partition_and_barrier :
    numColumnGoroutines = width
    ∧ wgAddCount = height
    ∧ wgAddCount = numColumnGoroutines
    ∧ (∀ doneCalls : Nat, doneCalls ≤ numColumnGoroutines →
        (wgAddCount - doneCalls = 0 ↔ doneCalls = numColumnGoroutines))
    ∧ parPixel = seqPixel
    ∧ (∀ (img : Raster) (src : SourceImage),
        generateMandelbrotParallel img src
          = (List.range numColumnGoroutines).foldl
              (fun acc x => (List.range height).foldl
                (fun acc' y => parPixel src x y acc') acc) img) := by
  refine ⟨rfl, rfl, rfl, ?_, rfl, fun img src => rfl⟩
  intro doneCalls hdone
  unfold wgAddCount numColumnGoroutines height width at *
  omega

/-- Witness for C6: with all 800 column goroutines done, the counter is 0. -/
theorem C6_witness : wgAddCount - numColumnGoroutines = 0 :=
  (C6_parallel_partition_and_barrier.2.2.2.1 numColumnGoroutines le_rfl).mpr rfl

/-- C7: Running the Sequential renderer twice with the same SourceImage and
RenderConfig produces byte-identical rasters. -/
theorem C7_sequential_idempotent (img : Raster) (src : SourceImage) :
    generateMandelbrotSequential (generateMandelbrotSequential img src) src
      = generateMandelbrotSequential img src :=
  generateMandelbrotSequential_initial_irrelevant _ img src

/-- C8: If a preset's processing fails at input open or at decode,
processImage returns early before any raster is allocated, producing no
output files and no timing report, while every preset of main still yields
its own processImage outcome, computed only from its own input file. -/
theorem C8_failed_preset_isolated {α : Type} (openFile : String → Option α)
    (decodeImage : α → Option SourceImage) (level file : String)
    (_hmem : (level, file) ∈ levelFiles)
    (hfail : openFile file = none
      ∨ ∃ s, openFile file = some s ∧ decodeImage s = none) :
    processImage level (openFile file) decodeImage
        = { filesWritten := [], timingReports := [], rastersAllocated := 0 }
    ∧ (mainRun openFile decodeImage).length = levelFiles.length
    ∧ (∀ l f, (l, f) ∈ levelFiles →
        (l, processImage l (openFile f) decodeImage) ∈ mainRun openFile decodeImage) := by
  refine ⟨?_, by simp [mainRun], fun l f hlf => ?_⟩
  · rcases hfail with h | ⟨s, hs, hd⟩
    · rw [h]
      rfl
    · rw [hs]
      simp [processImage, hd]
  · exact List.mem_map.mpr ⟨(l, f), hlf, rfl⟩

/-- Witness for C8: the easy preset with a missing input file. -/
theorem C8_witness :
    processImage "easy" ((fun _ => (none : Option Unit)) "photos/easy.png")
        (fun _ => none)
      = { filesWritten := [], timingReports := [], rastersAllocated := 0 } :=
  (C8_failed_preset_isolated (fun _ => (none : Option Unit)) (fun _ => none)
    "easy" "photos/easy.png" (List.Mem.head _) (Or.inl rfl)).1

/-- C9: Because maxIter = 200 <= 256, every escaped input's grayscale value
equals its escape iteration index, always lies in [0,199], and gray values
in [200,255] are never produced. -/
theorem C9_gray_values_below_200 (c : ComplexNumber) (v : Nat)
    (h : mandelbrot c = GoColor.gray v) :
    ∃ j, j < maxIter ∧ escapesAt c j ∧ (∀ k, k < j → ¬ escapesAt c k)
      ∧ v = j % 256 ∧ v = j ∧ v ≤ 199 := by
  obtain ⟨j, hj, he, hmin, hv⟩ := mandelbrot_gray_inv c v h
  have hj200 : j < 200 := by simpa [maxIter] using hj
  have hvj : v = j := by
    rw [hv]
    exact Nat.mod_eq_of_lt (by omega)
  exact ⟨j, hj, he, hmin, hv, hvj, by omega⟩

/-- Witness for C9: the point 5+5i, whose grayscale value is 0. -/
theorem C9_witness :
    ∃ j, j < maxIter ∧ escapesAt ⟨5, 5⟩ j ∧ (∀ k, k < j → ¬ escapesAt ⟨5, 5⟩ k)
      ∧ (0 : Nat) = j % 256 ∧ (0 : Nat) = j ∧ (0 : Nat) ≤ 199 :=
  C9_gray_values_below_200 ⟨5, 5⟩ 0 mandelbrot_five_five

/-- C10: The raster produced by the sequential renderer is independent of
the raster's initial pixel contents; in particular the copyImage pre-pass
performed by processImage before rendering has no effect on the rendered
output. -/
theorem C10_output_independent_of_initial_raster
    (src : SourceImage) (img₁ img₂ : Raster) :
    generateMandelbrotSequential img₁ src = generateMandelbrotSequential img₂ src
    ∧ generateMandelbrotSequential (copyImage img₁ src) src
        = generateMandelbrotSequential img₁ src :=
  ⟨generateMandelbrotSequential_initial_irrelevant img₁ img₂ src,
   generateMandelbrotSequential_initial_irrelevant _ img₁ src⟩
